import Mathlib

/-!
# Verification of the video-QA backend's defect-detection engine

Shallow embedding of `backend/video_analyzer.py`, `backend/test_simple.py`,
`backend/analysis_tasks.py` and `backend/app_simple.py`.

Modelling conventions:
* Python floats are modelled as exact rationals (`ℚ`).  All thresholds used
  by the engine (`0.99`, `0.95`, `-40` dBFS, `8/255` brightness, ...) are
  rational, and every comparison the code performs on computed dB values is
  rewritten into the equivalent rational comparison on the underlying
  amplitudes (noted at each definition).
* Decoded media (frames, audio sample arrays) are external inputs of the
  engine; they are modelled as explicit arguments.  Quantities that the code
  obtains from external libraries through transcendental computations
  (integrated LUFS from `pyloudnorm`, the PSNR > 45 dB verdict on a pixel
  array, librosa's glitch features) enter the model as oracle parameters,
  since their values, not their internal computation, drive the control flow
  under verification.
* The `HH:MM:SS.mmm` timestamp string is modelled by the record of its three
  fields (hours, minutes, and the seconds field in milliseconds); the string
  is an injective rendering of this record with fixed separators.
-/

namespace VideoQA

/-- Issue severity levels (`'low'`, `'medium'`, `'high'`). -/
inductive Severity
  | low
  | medium
  | high
deriving DecidableEq, Repr

/-- Overall summary status values. -/
inductive Status
  | PASS
  | WARNING
  | FAIL
  | ERROR
deriving DecidableEq, Repr

/-- The information content of the `HH:MM:SS.mmm` string produced by
`_seconds_to_timestamp`: hours, minutes, and the `SS.mmm` seconds field
expressed as a whole number of milliseconds (the `%06.3f` formatting rounds
the seconds value to three decimals). -/
structure Timestamp where
  hours : ℕ
  minutes : ℕ
  millis : ℕ
deriving DecidableEq, Repr

/-- Round to the nearest integer, ties to even: the rounding applied by
Python's fixed-point float formatting (`%06.3f`). -/
def roundHalfEven (q : ℚ) : ℤ :=
  if Int.fract q < 1/2 then ⌊q⌋
  else if 1/2 < Int.fract q then ⌊q⌋ + 1
  else if Even ⌊q⌋ then ⌊q⌋ else ⌊q⌋ + 1

/-- Python's `%` on floats with a positive divisor: the nonnegative
remainder `a - b * (a // b)`. -/
def qmod (a b : ℚ) : ℚ := a - b * ⌊a / b⌋

/-- `_seconds_to_timestamp`: `hours = int(s // 3600)`,
`minutes = int((s % 3600) // 60)`, `secs = s % 60`, rendered as
`f"{hours:02d}:{minutes:02d}:{secs:06.3f}"` (the seconds field keeps three
decimals, i.e. a whole number of milliseconds). -/
def secondsToTimestamp (s : ℚ) : Timestamp :=
  { hours := (⌊s / 3600⌋).toNat
    minutes := (⌊qmod s 3600 / 60⌋).toNat
    millis := (roundHalfEven (qmod s 60 * 1000)).toNat }

/-- `_timestamp_to_seconds`: split the string on `':'` and compute
`hours * 3600 + minutes * 60 + seconds`, where the parsed seconds field
carries three decimals. -/
def timestampToSeconds (t : Timestamp) : ℚ :=
  t.hours * 3600 + t.minutes * 60 + (t.millis : ℚ) / 1000

lemma abs_roundHalfEven_sub (q : ℚ) : |(roundHalfEven q : ℚ) - q| ≤ 1/2 := by
  have hfr0 : 0 ≤ Int.fract q := Int.fract_nonneg q
  have hfr1 : Int.fract q < 1 := Int.fract_lt_one q
  have hq : (⌊q⌋ : ℚ) = q - Int.fract q := by
    rw [Int.fract]; ring
  unfold roundHalfEven
  split
  · rw [abs_le]; constructor <;> [skip; skip] <;> rw [hq] <;> nlinarith
  · rename_i h
    push_neg at h
    split
    · rename_i h2
      rw [abs_le]; constructor <;> push_cast <;> rw [hq] <;> nlinarith
    · rename_i h2
      push_neg at h2
      have : Int.fract q = 1/2 := le_antisymm h2 h
      split <;> rw [abs_le] <;> constructor <;> push_cast <;> rw [hq, this] <;>
        linarith

lemma roundHalfEven_nonneg {q : ℚ} (h : 0 ≤ q) : 0 ≤ roundHalfEven q := by
  have h0 : (0 : ℤ) ≤ ⌊q⌋ := Int.floor_nonneg.2 h
  unfold roundHalfEven
  split
  · exact h0
  · split
    · omega
    · split <;> omega

lemma qmod_nonneg (a : ℚ) {b : ℚ} (hb : 0 < b) : 0 ≤ qmod a b := by
  unfold qmod
  have h := Int.floor_le (a / b)
  have : (⌊a / b⌋ : ℚ) * b ≤ a / b * b := by
    exact mul_le_mul_of_nonneg_right h (le_of_lt hb)
  rw [div_mul_cancel₀ a (ne_of_gt hb)] at this
  linarith [this]

lemma qmod_decompose (a b : ℚ) : a = b * ⌊a / b⌋ + qmod a b := by
  unfold qmod; ring

/-- Decomposition used by the round trip: hours, minutes and the residual
seconds reassemble to the input. -/
lemma timestamp_decompose {s : ℚ} (hs : 0 ≤ s) :
    ((⌊s / 3600⌋).toNat : ℚ) * 3600 + ((⌊qmod s 3600 / 60⌋).toNat : ℚ) * 60
      + qmod s 60 = s := by
  have h3600 : (0:ℚ) < 3600 := by norm_num
  have h60 : (0:ℚ) < 60 := by norm_num
  have hh : (0 : ℤ) ≤ ⌊s / 3600⌋ := Int.floor_nonneg.2 (by positivity)
  have hm0 : (0:ℚ) ≤ qmod s 3600 := qmod_nonneg s h3600
  have hm : (0 : ℤ) ≤ ⌊qmod s 3600 / 60⌋ := Int.floor_nonneg.2 (by positivity)
  have hh' : ((⌊s / 3600⌋.toNat : ℕ) : ℚ) = (⌊s / 3600⌋ : ℚ) := by
    exact_mod_cast congrArg (fun z : ℤ => (z : ℚ)) (Int.toNat_of_nonneg hh)
  have hm' : ((⌊qmod s 3600 / 60⌋.toNat : ℕ) : ℚ) = (⌊qmod s 3600 / 60⌋ : ℚ) := by
    exact_mod_cast congrArg (fun z : ℤ => (z : ℚ)) (Int.toNat_of_nonneg hm)
  rw [hh', hm']
  have key : ⌊qmod s 3600 / 60⌋ = ⌊s / 60⌋ - 60 * ⌊s / 3600⌋ := by
    have : qmod s 3600 / 60 = s / 60 - (60 * ⌊s / 3600⌋ : ℤ) := by
      unfold qmod; push_cast; ring
    rw [this, Int.floor_sub_int]
  rw [key]
  unfold qmod
  push_cast
  ring

/-- **C7.** For every non-negative rational number of seconds, converting it
with `_seconds_to_timestamp` to the `HH:MM:SS.mmm` record and reading it back
with `_timestamp_to_seconds` reproduces the original value to within one
millisecond (the only information lost is the rounding of the seconds field
to three decimals, an error of at most half a millisecond). -/
theorem timestamp_roundtrip (s : ℚ) (hs : 0 ≤ s) :
    |timestampToSeconds (secondsToTimestamp s) - s| ≤ 1/1000 := by
  have h60 : (0:ℚ) < 60 := by norm_num
  have hq0 : (0:ℚ) ≤ qmod s 60 := qmod_nonneg s h60
  have hr0 : 0 ≤ roundHalfEven (qmod s 60 * 1000) :=
    roundHalfEven_nonneg (by positivity)
  have hdec := timestamp_decompose hs
  unfold timestampToSeconds secondsToTimestamp
  simp only
  have hr' : (((roundHalfEven (qmod s 60 * 1000)).toNat : ℕ) : ℚ)
      = ((roundHalfEven (qmod s 60 * 1000) : ℤ) : ℚ) := by
    exact_mod_cast congrArg (fun z : ℤ => (z : ℚ)) (Int.toNat_of_nonneg hr0)
  rw [hr']
  have hround := abs_roundHalfEven_sub (qmod s 60 * 1000)
  have : ((⌊s / 3600⌋).toNat : ℚ) * 3600 + ((⌊qmod s 3600 / 60⌋).toNat : ℚ) * 60
      + ((roundHalfEven (qmod s 60 * 1000) : ℤ) : ℚ) / 1000 - s
      = (((roundHalfEven (qmod s 60 * 1000) : ℤ) : ℚ) - qmod s 60 * 1000) / 1000 := by
    linear_combination hdec
  rw [this, abs_div]
  have : |(1000 : ℚ)| = 1000 := by norm_num
  rw [this]
  rw [div_le_div_iff₀ (by norm_num) (by norm_num)]
  linarith [hround]

/-- Witness for C7 at the concrete input `s = 5/2` seconds. -/
theorem timestamp_roundtrip_witness :
    (0:ℚ) ≤ 5/2 ∧
      |timestampToSeconds (secondsToTimestamp (5/2)) - 5/2| ≤ 1/1000 :=
  ⟨by norm_num, timestamp_roundtrip (5/2) (by norm_num)⟩

/-! ## Run-length grouping of flagged samples

`_detect_clipping` and `_detect_silences` group flagged samples with the same
numpy pipeline:
`diff = np.diff(np.concatenate([[False], flags, [False]]).astype(int))`,
`starts = np.where(diff == 1)[0]`, `ends = np.where(diff == -1)[0]`,
then `zip(starts, ends)`. -/

/-- `np.diff`: differences of consecutive elements. -/
def diffList (l : List ℤ) : List ℤ := List.zipWith (fun a b => b - a) l l.tail

/-- `np.where(l == v)[0]` with indices starting at `i`: the ascending list of
positions holding `v`. -/
def idxWhere (v : ℤ) : List ℤ → ℕ → List ℕ
  | [], _ => []
  | a :: rest, i => (if a = v then [i] else []) ++ idxWhere v rest (i + 1)

/-- `.astype(int)` on a boolean array. -/
def toInts (l : List Bool) : List ℤ := l.map (fun b => if b then 1 else 0)

/-- The start/end span list (end exclusive) produced by the numpy run-length
pipeline on a flag array. -/
def runSpans (flags : List Bool) : List (ℕ × ℕ) :=
  let d := diffList (toInts (false :: (flags ++ [false])))
  (idxWhere 1 d 0).zip (idxWhere (-1) d 0)

/-- Proof helper: run starts of a flag list at offset `i`, given the flag
preceding the list. -/
def startsFrom : Bool → List Bool → ℕ → List ℕ
  | _, [], _ => []
  | prev, b :: rest, i => (if b && !prev then [i] else []) ++ startsFrom b rest (i + 1)

/-- Proof helper: run ends of a flag list at offset `i`, given the flag
preceding the list. -/
def endsFrom : Bool → List Bool → ℕ → List ℕ
  | prev, [], i => if prev then [i] else []
  | prev, b :: rest, i => (if !b && prev then [i] else []) ++ endsFrom b rest (i + 1)

/-- Proof helper: maximal `true` runs of a flag list, with absolute indices
starting at `i` and an optional pending (already started) run. -/
def runsAux : List Bool → ℕ → Option ℕ → List (ℕ × ℕ)
  | [], _, none => []
  | [], i, some s => [(s, i)]
  | b :: rest, i, none =>
      if b then runsAux rest (i + 1) (some i) else runsAux rest (i + 1) none
  | b :: rest, i, some s =>
      if b then runsAux rest (i + 1) (some s)
      else (s, i) :: runsAux rest (i + 1) none

lemma idxWhere_one_diff (flags : List Bool) : ∀ (prev : Bool) (i : ℕ),
    idxWhere 1 (diffList (toInts (prev :: (flags ++ [false])))) i
      = startsFrom prev flags i := by
  induction flags with
  | nil =>
    intro prev i
    cases prev <;> simp [toInts, diffList, idxWhere, startsFrom]
  | cons b rest ih =>
    intro prev i
    have h1 : diffList (toInts (prev :: ((b :: rest) ++ [false])))
        = ((if b then (1:ℤ) else 0) - (if prev then 1 else 0))
          :: diffList (toInts (b :: (rest ++ [false]))) := rfl
    rw [h1]
    show (if ((if b then (1:ℤ) else 0) - (if prev then 1 else 0)) = 1
          then [i] else [])
        ++ idxWhere 1 (diffList (toInts (b :: (rest ++ [false])))) (i + 1)
      = (if b && !prev then [i] else []) ++ startsFrom b rest (i + 1)
    rw [ih b (i + 1)]
    congr 1
    cases b <;> cases prev <;> simp

lemma idxWhere_negOne_diff (flags : List Bool) : ∀ (prev : Bool) (i : ℕ),
    idxWhere (-1) (diffList (toInts (prev :: (flags ++ [false])))) i
      = endsFrom prev flags i := by
  induction flags with
  | nil =>
    intro prev i
    cases prev <;> simp [toInts, diffList, idxWhere, endsFrom]
  | cons b rest ih =>
    intro prev i
    have h1 : diffList (toInts (prev :: ((b :: rest) ++ [false])))
        = ((if b then (1:ℤ) else 0) - (if prev then 1 else 0))
          :: diffList (toInts (b :: (rest ++ [false]))) := rfl
    rw [h1]
    show (if ((if b then (1:ℤ) else 0) - (if prev then 1 else 0)) = -1
          then [i] else [])
        ++ idxWhere (-1) (diffList (toInts (b :: (rest ++ [false])))) (i + 1)
      = (if !b && prev then [i] else []) ++ endsFrom b rest (i + 1)
    rw [ih b (i + 1)]
    congr 1
    cases b <;> cases prev <;> simp

lemma zip_startsFrom_endsFrom (flags : List Bool) : ∀ i : ℕ,
    ((startsFrom false flags i).zip (endsFrom false flags i)
        = runsAux flags i none)
    ∧ ∀ s : ℕ, ((s :: startsFrom true flags i).zip (endsFrom true flags i)
        = runsAux flags i (some s)) := by
  induction flags with
  | nil =>
    intro i
    exact ⟨rfl, fun s => rfl⟩
  | cons b rest ih =>
    intro i
    constructor
    · cases b
      · simpa [startsFrom, endsFrom, runsAux] using (ih (i + 1)).1
      · simpa [startsFrom, endsFrom, runsAux] using (ih (i + 1)).2 i
    · intro s
      cases b
      · simp [startsFrom, endsFrom, runsAux, (ih (i + 1)).1]
      · simpa [startsFrom, endsFrom, runsAux] using (ih (i + 1)).2 s

lemma runSpans_eq_runsAux (flags : List Bool) :
    runSpans flags = runsAux flags 0 none := by
  show (idxWhere 1 (diffList (toInts (false :: (flags ++ [false])))) 0).zip
      (idxWhere (-1) (diffList (toInts (false :: (flags ++ [false])))) 0)
    = runsAux flags 0 none
  rw [idxWhere_one_diff flags false 0, idxWhere_negOne_diff flags false 0]
  exact (zip_startsFrom_endsFrom flags 0).1

/-- `(s, e)` is a maximal contiguous run of `true` flags: every position in
`[s, e)` is flagged and both boundary neighbours (when they exist) are not. -/
def IsMaxRun (flags : List Bool) (s e : ℕ) : Prop :=
  s < e ∧ e ≤ flags.length
    ∧ (∀ j, s ≤ j → j < e → flags.getD j false = true)
    ∧ (s = 0 ∨ flags.getD (s - 1) false = false)
    ∧ flags.getD e false = false

/-- Proof helper: a maximal run located inside a flag-list suffix whose first
element sits at absolute index `i`. -/
def RunIn (flags : List Bool) (i s e : ℕ) : Prop :=
  i ≤ s ∧ s < e ∧ e ≤ i + flags.length
    ∧ (∀ j, s ≤ j → j < e → flags.getD (j - i) false = true)
    ∧ flags.getD (e - i) false = false
    ∧ (s = i ∨ flags.getD (s - i - 1) false = false)

/-- Proof helper: the closing index of a run already open when the suffix at
absolute index `i` begins. -/
def PendRun (flags : List Bool) (i e : ℕ) : Prop :=
  i ≤ e ∧ (∀ j, i ≤ j → j < e → flags.getD (j - i) false = true)
    ∧ flags.getD (e - i) false = false

lemma getD_cons_of_lt (b : Bool) (rest : List Bool) {i j : ℕ} (h : i < j) :
    (b :: rest).getD (j - i) false = rest.getD (j - (i + 1)) false := by
  rw [show j - i = (j - (i + 1)) + 1 by omega, List.getD_cons_succ]

lemma not_runIn_nil (i s e : ℕ) : ¬ RunIn [] i s e := by
  rintro ⟨h1, h2, h3, -⟩
  have : ([] : List Bool).length = 0 := rfl
  omega

lemma pendRun_nil (i e : ℕ) : PendRun [] i e ↔ e = i := by
  unfold PendRun
  constructor
  · rintro ⟨hle, hwin, -⟩
    by_contra hcon
    have := hwin i (le_refl i) (by omega)
    simp at this
  · rintro rfl
    exact ⟨le_refl _, fun j h1 h2 => absurd h2 (by omega), by simp⟩

lemma runIn_cons_true_self (rest : List Bool) (i e : ℕ) :
    RunIn (true :: rest) i i e ↔ PendRun rest (i + 1) e := by
  unfold RunIn PendRun
  constructor
  · rintro ⟨-, hlt, hle, hwin, hend, -⟩
    refine ⟨hlt, ?_, ?_⟩
    · intro j hj1 hj2
      have := hwin j (by omega) hj2
      rwa [getD_cons_of_lt true rest (by omega : i < j)] at this
    · rwa [getD_cons_of_lt true rest (by omega : i < e)] at hend
  · rintro ⟨hle, hwin, hend⟩
    have hlen : (true :: rest).length = rest.length + 1 := rfl
    refine ⟨le_refl i, by omega, ?_, ?_, ?_, Or.inl rfl⟩
    · by_contra hcon
      have hj : rest.getD ((i + 1 + rest.length) - (i + 1)) false = true :=
        hwin (i + 1 + rest.length) (by omega) (by omega)
      rw [show (i + 1 + rest.length) - (i + 1) = rest.length by omega,
        List.getD_eq_default] at hj
      · simp at hj
      · exact le_refl _
    · intro j hj1 hj2
      rcases Nat.eq_or_lt_of_le hj1 with h | h
      · rw [← h, Nat.sub_self, List.getD_cons_zero]
      · rw [getD_cons_of_lt true rest h]
        exact hwin j (by omega) hj2
    · rw [getD_cons_of_lt true rest (by omega : i < e)]
      exact hend

lemma runIn_cons_true_of_lt (rest : List Bool) {i s : ℕ} (hs : i < s) (e : ℕ) :
    RunIn (true :: rest) i s e ↔ (i + 1 < s ∧ RunIn rest (i + 1) s e) := by
  unfold RunIn
  have hlen : (true :: rest).length = rest.length + 1 := rfl
  constructor
  · rintro ⟨-, hlt, hle, hwin, hend, hpred⟩
    have hpred' : (true :: rest).getD (s - i - 1) false = false := by
      rcases hpred with h | h
      · exact absurd h (by omega)
      · exact h
    have hs2 : i + 1 < s := by
      by_contra hcon
      rw [show s - i - 1 = 0 by omega, List.getD_cons_zero] at hpred'
      simp at hpred'
    refine ⟨hs2, by omega, hlt, by omega, ?_, ?_, ?_⟩
    · intro j hj1 hj2
      have := hwin j hj1 hj2
      rwa [getD_cons_of_lt true rest (by omega : i < j)] at this
    · rwa [getD_cons_of_lt true rest (by omega : i < e)] at hend
    · right
      rwa [show s - i - 1 = (s - (i + 1) - 1) + 1 by omega,
        List.getD_cons_succ] at hpred'
  · rintro ⟨hs2, hle', hlt, hle, hwin, hend, hpred⟩
    refine ⟨by omega, hlt, by omega, ?_, ?_, ?_⟩
    · intro j hj1 hj2
      rw [getD_cons_of_lt true rest (by omega : i < j)]
      exact hwin j hj1 hj2
    · rw [getD_cons_of_lt true rest (by omega : i < e)]
      exact hend
    · right
      rcases hpred with h | h
      · exact absurd h (by omega)
      · rw [show s - i - 1 = (s - (i + 1) - 1) + 1 by omega, List.getD_cons_succ]
        exact h

lemma runIn_cons_false (rest : List Bool) (i s e : ℕ) :
    RunIn (false :: rest) i s e ↔ RunIn rest (i + 1) s e := by
  unfold RunIn
  have hlen : (false :: rest).length = rest.length + 1 := rfl
  constructor
  · rintro ⟨his, hlt, hle, hwin, hend, hpred⟩
    have hs : i < s := by
      rcases Nat.eq_or_lt_of_le his with h | h
      · exfalso
        have := hwin s (le_refl s) hlt
        rw [← h, Nat.sub_self, List.getD_cons_zero] at this
        simp at this
      · exact h
    refine ⟨by omega, hlt, by omega, ?_, ?_, ?_⟩
    · intro j hj1 hj2
      have := hwin j hj1 hj2
      rwa [getD_cons_of_lt false rest (by omega : i < j)] at this
    · rwa [getD_cons_of_lt false rest (by omega : i < e)] at hend
    · rcases Nat.eq_or_lt_of_le (show i + 1 ≤ s by omega) with h | h
      · exact Or.inl h.symm
      · right
        rcases hpred with h0 | h0
        · exact absurd h0 (by omega)
        · rwa [show s - i - 1 = (s - (i + 1) - 1) + 1 by omega,
            List.getD_cons_succ] at h0
  · rintro ⟨his, hlt, hle, hwin, hend, hpred⟩
    refine ⟨by omega, hlt, by omega, ?_, ?_, ?_⟩
    · intro j hj1 hj2
      rw [getD_cons_of_lt false rest (by omega : i < j)]
      exact hwin j hj1 hj2
    · rw [getD_cons_of_lt false rest (by omega : i < e)]
      exact hend
    · right
      rcases Nat.eq_or_lt_of_le his with h | h
      · rw [show s - i - 1 = 0 by omega, List.getD_cons_zero]
      · rw [show s - i - 1 = (s - (i + 1) - 1) + 1 by omega, List.getD_cons_succ]
        rcases hpred with h0 | h0
        · exact absurd h0 (by omega)
        · exact h0

lemma pendRun_cons_true (rest : List Bool) (i e : ℕ) :
    PendRun (true :: rest) i e ↔ PendRun rest (i + 1) e := by
  unfold PendRun
  constructor
  · rintro ⟨hle, hwin, hend⟩
    have he : i < e := by
      rcases Nat.eq_or_lt_of_le hle with h | h
      · exfalso
        rw [← h, Nat.sub_self, List.getD_cons_zero] at hend
        simp at hend
      · exact h
    refine ⟨by omega, ?_, ?_⟩
    · intro j hj1 hj2
      have := hwin j (by omega) hj2
      rwa [getD_cons_of_lt true rest (by omega : i < j)] at this
    · rwa [getD_cons_of_lt true rest he] at hend
  · rintro ⟨hle, hwin, hend⟩
    refine ⟨by omega, ?_, ?_⟩
    · intro j hj1 hj2
      rcases Nat.eq_or_lt_of_le hj1 with h | h
      · rw [← h, Nat.sub_self, List.getD_cons_zero]
      · rw [getD_cons_of_lt true rest h]
        exact hwin j (by omega) hj2
    · rw [getD_cons_of_lt true rest (by omega : i < e)]
      exact hend

lemma pendRun_cons_false (rest : List Bool) (i e : ℕ) :
    PendRun (false :: rest) i e ↔ e = i := by
  unfold PendRun
  constructor
  · rintro ⟨hle, hwin, hend⟩
    by_contra hcon
    have := hwin i (le_refl i) (by omega)
    rw [Nat.sub_self, List.getD_cons_zero] at this
    simp at this
  · rintro rfl
    exact ⟨le_refl _, fun j hj1 hj2 => absurd hj2 (by omega),
      by rw [Nat.sub_self, List.getD_cons_zero]⟩

lemma runsAux_mem_iff (flags : List Bool) : ∀ i : ℕ,
    (∀ s e : ℕ, ((s, e) ∈ runsAux flags i none ↔ RunIn flags i s e))
    ∧ (∀ s₀ s e : ℕ, ((s, e) ∈ runsAux flags i (some s₀)
        ↔ (s = s₀ ∧ PendRun flags i e) ∨ (i < s ∧ RunIn flags i s e))) := by
  induction flags with
  | nil =>
    intro i
    constructor
    · intro s e
      simp only [runsAux, List.not_mem_nil, false_iff]
      exact not_runIn_nil i s e
    · intro s₀ s e
      simp only [runsAux, List.mem_singleton, Prod.mk.injEq, pendRun_nil]
      constructor
      · rintro ⟨rfl, rfl⟩
        exact Or.inl ⟨rfl, rfl⟩
      · rintro (⟨rfl, rfl⟩ | ⟨-, h⟩)
        · exact ⟨rfl, rfl⟩
        · exact absurd h (not_runIn_nil _ _ _)
  | cons b rest ih =>
    intro i
    have ihn := (ih (i + 1)).1
    have ihs := (ih (i + 1)).2
    constructor
    · intro s e
      cases b
      · have h : runsAux (false :: rest) i none = runsAux rest (i + 1) none := by
          simp [runsAux]
        rw [h, ihn s e, runIn_cons_false]
      · have h : runsAux (true :: rest) i none = runsAux rest (i + 1) (some i) := by
          simp [runsAux]
        rw [h, ihs i s e]
        constructor
        · rintro (⟨rfl, hp⟩ | ⟨hlt, hr⟩)
          · exact (runIn_cons_true_self rest s e).2 hp
          · exact (runIn_cons_true_of_lt rest (by omega : i < s) e).2 ⟨hlt, hr⟩
        · intro hr
          have his : i ≤ s := hr.1
          rcases Nat.eq_or_lt_of_le his with rfl | h'
          · exact Or.inl ⟨rfl, (runIn_cons_true_self rest i e).1 hr⟩
          · exact Or.inr ((runIn_cons_true_of_lt rest h' e).1 hr)
    · intro s₀ s e
      cases b
      · have h : runsAux (false :: rest) i (some s₀)
            = (s₀, i) :: runsAux rest (i + 1) none := by simp [runsAux]
        rw [h]
        simp only [List.mem_cons, Prod.mk.injEq]
        rw [ihn s e]
        constructor
        · rintro (⟨rfl, rfl⟩ | hr)
          · exact Or.inl ⟨rfl, (pendRun_cons_false rest e e).2 rfl⟩
          · exact Or.inr ⟨by have := hr.1; omega, (runIn_cons_false rest i s e).2 hr⟩
        · rintro (⟨rfl, hp⟩ | ⟨hlt, hr⟩)
          · exact Or.inl ⟨rfl, (pendRun_cons_false rest i e).1 hp⟩
          · exact Or.inr ((runIn_cons_false rest i s e).1 hr)
      · have h : runsAux (true :: rest) i (some s₀)
            = runsAux rest (i + 1) (some s₀) := by simp [runsAux]
        rw [h, ihs s₀ s e]
        constructor
        · rintro (⟨rfl, hp⟩ | ⟨hlt, hr⟩)
          · exact Or.inl ⟨rfl, (pendRun_cons_true rest i e).2 hp⟩
          · exact Or.inr ⟨by omega,
              (runIn_cons_true_of_lt rest (by omega : i < s) e).2 ⟨hlt, hr⟩⟩
        · rintro (⟨rfl, hp⟩ | ⟨hlt, hr⟩)
          · exact Or.inl ⟨rfl, (pendRun_cons_true rest i e).1 hp⟩
          · exact Or.inr ((runIn_cons_true_of_lt rest hlt e).1 hr)

/-- Membership in the numpy span pipeline's output characterises exactly the
maximal contiguous runs of `true` flags. -/
lemma runSpans_mem_iff (flags : List Bool) (s e : ℕ) :
    (s, e) ∈ runSpans flags ↔ IsMaxRun flags s e := by
  rw [runSpans_eq_runsAux, (runsAux_mem_iff flags 0).1 s e]
  unfold RunIn IsMaxRun
  simp only [Nat.sub_zero, Nat.zero_add]
  constructor
  · rintro ⟨-, h2, h3, h4, h5, h6⟩
    exact ⟨h2, h3, h4, h6, h5⟩
  · rintro ⟨h2, h3, h4, h6, h5⟩
    exact ⟨Nat.zero_le s, h2, h3, h4, h5, h6⟩

/-- Successive spans produced by the pipeline are disjoint: each span ends
no later than the next one starts. -/
lemma runsAux_pairwise (flags : List Bool) : ∀ i : ℕ,
    ((runsAux flags i none).Pairwise fun p q => p.2 ≤ q.1)
    ∧ ∀ s₀ : ℕ, (runsAux flags i (some s₀)).Pairwise fun p q => p.2 ≤ q.1 := by
  induction flags with
  | nil =>
    intro i
    exact ⟨by simp [runsAux], fun s₀ => by simp [runsAux]⟩
  | cons b rest ih =>
    intro i
    constructor
    · cases b
      · simpa [runsAux] using (ih (i + 1)).1
      · simpa [runsAux] using (ih (i + 1)).2 i
    · intro s₀
      cases b
      · have h : runsAux (false :: rest) i (some s₀)
            = (s₀, i) :: runsAux rest (i + 1) none := by simp [runsAux]
        rw [h]
        refine List.Pairwise.cons ?_ (ih (i + 1)).1
        rintro ⟨a, e⟩ hq
        have ha : i + 1 ≤ a := (((runsAux_mem_iff rest (i + 1)).1 a e).1 hq).1
        show i ≤ a
        omega
      · simpa [runsAux] using (ih (i + 1)).2 s₀

lemma runSpans_pairwise (flags : List Bool) :
    (runSpans flags).Pairwise fun p q => p.2 ≤ q.1 := by
  rw [runSpans_eq_runsAux]
  exact (runsAux_pairwise flags 0).1

lemma runsAux_replicate_true : ∀ (k i s : ℕ),
    runsAux (List.replicate k true) i (some s) = [(s, i + k)] := by
  intro k
  induction k with
  | zero => intro i s; simp [runsAux]
  | succ k ih =>
    intro i s
    rw [List.replicate_succ]
    have h : runsAux (true :: List.replicate k true) i (some s)
        = runsAux (List.replicate k true) (i + 1) (some s) := by simp [runsAux]
    rw [h, ih (i + 1) s, show i + 1 + k = i + (k + 1) by omega]

lemma runSpans_replicate_true (n : ℕ) :
    runSpans (List.replicate (n + 1) true) = [(0, n + 1)] := by
  rw [runSpans_eq_runsAux, List.replicate_succ]
  have h : runsAux (true :: List.replicate n true) 0 none
      = runsAux (List.replicate n true) 1 (some 0) := by simp [runsAux]
  rw [h, runsAux_replicate_true n 1 0, show 1 + n = n + 1 by omega]

lemma runsAux_all_false : ∀ (flags : List Bool),
    (∀ b ∈ flags, b = false) → ∀ i, runsAux flags i none = []
  | [], _, i => by simp [runsAux]
  | b :: rest, h, i => by
    have hb : b = false := h b (List.mem_cons_self b rest)
    subst hb
    simpa [runsAux] using
      runsAux_all_false rest (fun x hx => h x (List.mem_cons_of_mem _ hx)) (i + 1)

/-! ## Issues and the audio span detectors -/

/-- A detected issue.  The presentational free-text fields of the Python
dicts (`description`, `suggested_fix`) are renderings of the structured
fields kept here and are omitted. -/
structure Issue where
  type : String
  timestamp : Timestamp
  duration : ℚ
  severity : Severity
deriving DecidableEq, Repr

/-- `_detect_clipping`'s flag array:
`np.abs(audio_data) >= clip_threshold` with `clip_threshold = 0.99`. -/
def clippedFlags (samples : List ℚ) : List Bool :=
  samples.map (fun x => decide ((99 : ℚ)/100 ≤ |x|))

/-- The clipping issue built for one span:
`duration = (end - start) / sample_rate`, `timestamp = start / sample_rate`,
severity `high`. -/
def clippingIssueOfSpan (sampleRate : ℚ) (p : ℕ × ℕ) : Issue :=
  { type := "clipping"
    timestamp := secondsToTimestamp ((p.1 : ℚ) / sampleRate)
    duration := ((p.2 - p.1 : ℕ) : ℚ) / sampleRate
    severity := Severity.high }

/-- `_detect_clipping`. -/
def detectClipping (samples : List ℚ) (sampleRate : ℚ) : List Issue :=
  let clipped := clippedFlags samples
  if clipped.any id then (runSpans clipped).map (clippingIssueOfSpan sampleRate)
  else []

/-- `_detect_silences`'s flag array: the source computes
`audio_db = 20*np.log10(np.abs(x) + 1e-10)` and flags `audio_db < -40`
(dBFS); since `20*log10(v) < -40 ↔ v < 10^(-2)` for positive `v`, the flag
is exactly `|x| + 10^(-10) < 1/100`. -/
def silentFlags (samples : List ℚ) : List Bool :=
  samples.map (fun x => decide (|x| + 1/10^10 < (1 : ℚ)/100))

/-- The silence issue built for one span, emitted only when the span lasts
at least `min_silence_duration = 1.0` second; severity `low` below three
seconds, `medium` from three seconds on. -/
def silenceIssueOfSpan (sampleRate : ℚ) (p : ℕ × ℕ) : Option Issue :=
  let duration : ℚ := ((p.2 - p.1 : ℕ) : ℚ) / sampleRate
  if 1 ≤ duration then
    some { type := "silence"
           timestamp := secondsToTimestamp ((p.1 : ℚ) / sampleRate)
           duration := duration
           severity := if duration < 3 then Severity.low else Severity.medium }
  else none

/-- `_detect_silences`. -/
def detectSilences (samples : List ℚ) (sampleRate : ℚ) : List Issue :=
  let silent := silentFlags samples
  if silent.any id then (runSpans silent).filterMap (silenceIssueOfSpan sampleRate)
  else []

lemma any_eq_false_all_false {l : List Bool} (h : ¬ l.any id = true) :
    ∀ b ∈ l, b = false := by
  intro b hb
  cases hb2 : b
  · rfl
  · subst hb2
    exact absurd (List.any_eq_true.2 ⟨true, hb, rfl⟩) h

/-- The `np.any` guard in `_detect_clipping` is redundant: on an unflagged
array the span pipeline is empty anyway. -/
lemma detectClipping_eq (samples : List ℚ) (sampleRate : ℚ) :
    detectClipping samples sampleRate
      = (runSpans (clippedFlags samples)).map (clippingIssueOfSpan sampleRate) := by
  simp only [detectClipping]
  split
  · rfl
  · rename_i h
    rw [runSpans_eq_runsAux, runsAux_all_false _ (any_eq_false_all_false h) 0]
    rfl

/-- The `np.any` guard in `_detect_silences` is redundant in the same way. -/
lemma detectSilences_eq (samples : List ℚ) (sampleRate : ℚ) :
    detectSilences samples sampleRate
      = (runSpans (silentFlags samples)).filterMap (silenceIssueOfSpan sampleRate) := by
  simp only [detectSilences]
  split
  · rfl
  · rename_i h
    rw [runSpans_eq_runsAux, runsAux_all_false _ (any_eq_false_all_false h) 0]
    rfl

/-- **C4.** For every sample array and positive sample rate,
`_detect_clipping` returns one issue per maximal contiguous run of samples
with `|x| ≥ 0.99`: its spans are exactly the maximal flagged runs (no
off-by-one at either boundary), successive spans are disjoint, and every
returned issue has `duration = span_length / sample_rate` (positive) and
severity `high`. -/
theorem clipping_spans_correct (samples : List ℚ) (sampleRate : ℚ)
    (hsr : 0 < sampleRate) :
    detectClipping samples sampleRate
        = (runSpans (clippedFlags samples)).map (clippingIssueOfSpan sampleRate)
    ∧ (∀ s e : ℕ, ((s, e) ∈ runSpans (clippedFlags samples)
        ↔ IsMaxRun (clippedFlags samples) s e))
    ∧ (runSpans (clippedFlags samples)).Pairwise (fun p q => p.2 ≤ q.1)
    ∧ (∀ iss ∈ detectClipping samples sampleRate,
        iss.severity = Severity.high ∧ 0 < iss.duration) := by
  refine ⟨detectClipping_eq samples sampleRate,
    fun s e => runSpans_mem_iff _ s e, runSpans_pairwise _, ?_⟩
  intro iss hiss
  rw [detectClipping_eq] at hiss
  rcases List.mem_map.1 hiss with ⟨p, hp, rfl⟩
  obtain ⟨a, e⟩ := p
  have hlt : a < e := ((runSpans_mem_iff (clippedFlags samples) a e).1 hp).1
  refine ⟨rfl, ?_⟩
  show 0 < ((e - a : ℕ) : ℚ) / sampleRate
  apply div_pos _ hsr
  exact_mod_cast Nat.sub_pos_of_lt hlt

/-- Witness for C4: a three-sample array with one clipped sample at rate 2. -/
theorem clipping_spans_correct_witness :
    (0 : ℚ) < 2
    ∧ (∀ iss ∈ detectClipping [(0 : ℚ), 1, 0] 2,
        iss.severity = Severity.high ∧ 0 < iss.duration) :=
  ⟨by norm_num, (clipping_spans_correct [(0 : ℚ), 1, 0] 2 (by norm_num)).2.2.2⟩

/-- **C6.** For every sample array and positive sample rate,
`_detect_silences` emits exactly one `silence` issue per maximal contiguous
run of samples below −40 dBFS whose duration is at least one second
(severity `low` below three seconds, `medium` otherwise); in particular a
fully silent clip of `n` samples with `n = 10 * sample_rate` (ten seconds)
yields exactly one `silence` issue covering the whole clip, of severity
`medium` — no high-severity issue. -/
theorem silence_spans_correct (samples : List ℚ) (sampleRate : ℚ)
    (hsr : 0 < sampleRate) :
    detectSilences samples sampleRate
        = (runSpans (silentFlags samples)).filterMap (silenceIssueOfSpan sampleRate)
    ∧ (∀ s e : ℕ, ((s, e) ∈ runSpans (silentFlags samples)
        ↔ IsMaxRun (silentFlags samples) s e))
    ∧ (runSpans (silentFlags samples)).Pairwise (fun p q => p.2 ≤ q.1)
    ∧ (∀ iss ∈ detectSilences samples sampleRate,
        iss.type = "silence" ∧ 1 ≤ iss.duration
        ∧ iss.severity = if iss.duration < 3 then Severity.low else Severity.medium)
    ∧ (∀ n : ℕ, (n : ℚ) = 10 * sampleRate →
        detectSilences (List.replicate n (0 : ℚ)) sampleRate
          = [{ type := "silence", timestamp := secondsToTimestamp 0,
               duration := 10, severity := Severity.medium }]) := by
  refine ⟨detectSilences_eq samples sampleRate,
    fun s e => runSpans_mem_iff _ s e, runSpans_pairwise _, ?_, ?_⟩
  · intro iss hiss
    rw [detectSilences_eq] at hiss
    rcases List.mem_filterMap.1 hiss with ⟨p, hp, hsome⟩
    simp only [silenceIssueOfSpan] at hsome
    split at hsome
    · rename_i hd
      rcases Option.some.inj hsome with rfl
      exact ⟨rfl, hd, rfl⟩
    · exact absurd hsome (by simp)
  · intro n hn
    have hsr' : sampleRate ≠ 0 := ne_of_gt hsr
    have hn0 : n ≠ 0 := by
      intro h0
      rw [h0] at hn
      simp at hn
      nlinarith
    obtain ⟨m, rfl⟩ := Nat.exists_eq_succ_of_ne_zero hn0
    rw [detectSilences_eq]
    have hf : silentFlags (List.replicate (m + 1) (0 : ℚ))
        = List.replicate (m + 1) true := by
      unfold silentFlags
      rw [List.map_replicate]
      have : |(0 : ℚ)| + 1/10^10 < (1 : ℚ)/100 := by
        rw [abs_zero]; norm_num
      rw [decide_eq_true this]
    rw [hf, runSpans_replicate_true m]
    have hspan : silenceIssueOfSpan sampleRate (0, m + 1)
        = some { type := "silence", timestamp := secondsToTimestamp 0,
                 duration := 10, severity := Severity.medium } := by
      have hq : ((m + 1 : ℕ) : ℚ) / sampleRate = 10 := by
        rw [hn, mul_div_assoc, div_self hsr', mul_one]
      simp only [silenceIssueOfSpan, Nat.sub_zero, hq, Nat.cast_zero, zero_div]
      norm_num
    rw [List.filterMap_cons, hspan, List.filterMap_nil]

/-- Witness for C6: 20 zero samples at rate 2 (a ten-second silent clip). -/
theorem silence_spans_correct_witness :
    (0 : ℚ) < 2
    ∧ detectSilences (List.replicate 20 (0 : ℚ)) 2
        = [{ type := "silence", timestamp := secondsToTimestamp 0,
             duration := 10, severity := Severity.medium }] :=
  ⟨by norm_num,
    (silence_spans_correct [] 2 (by norm_num)).2.2.2.2 20 (by norm_num)⟩

/-! ## The per-frame video loop of `analyze_video` -/

/-- A sampled frame, abstracted by the two verdicts the per-frame loop of
`analyze_video` derives from its decoded pixel array: the mean grayscale
brightness (`np.mean(gray_frame)`) and whether the PSNR against the previous
sampled frame exceeds 45 dB (`similarPrev`; the PSNR itself is a
transcendental function of the pixels computed at the decode boundary, so
the model carries the Boolean verdict; the flag of the first frame is never
read because `prev_frame` is `None` there). -/
structure SampledFrame where
  brightness : ℚ
  similarPrev : Bool
deriving DecidableEq, Repr

/-- Black-frame check at sampled time `t`: brightness below 8 (out of 255)
emits a `black_frame` issue of severity `medium` lasting one sampling
interval. -/
def blackIssues (f : SampledFrame) (t : ℕ) : List Issue :=
  if f.brightness < 8 then
    [{ type := "black_frame", timestamp := secondsToTimestamp (t : ℚ),
       duration := 1, severity := Severity.medium }]
  else []

/-- The frozen-frame issue for a span starting at second `fs` and lasting
`d` sampled intervals: severity `high` above five seconds, else `medium`. -/
def frozenIssue (fs d : ℕ) : Issue :=
  { type := "frozen_frame", timestamp := secondsToTimestamp (fs : ℚ),
    duration := (d : ℚ),
    severity := if 5 < d then Severity.high else Severity.medium }

/-- The per-frame loop of `analyze_video` with `sample_interval = 1.0`
(sampled times `0, 1, 2, ...`): black-frame detection, then frozen-span
accumulation over consecutive-frame similarity; a span longer than two
seconds is emitted as one `frozen_frame` issue when it closes, and a span
still open when the frames end is flushed by the post-loop check. -/
def videoLoop : List SampledFrame → ℕ → Bool → Option ℕ → ℕ → List Issue
  | [], _, _, frozenStart, frozenDur =>
      match frozenStart with
      | some fs => if 2 < frozenDur then [frozenIssue fs frozenDur] else []
      | none => []
  | f :: rest, t, hasPrev, frozenStart, frozenDur =>
      blackIssues f t ++
      if hasPrev then
        if f.similarPrev then
          videoLoop rest (t + 1) true (some (frozenStart.getD (t - 1))) (frozenDur + 1)
        else
          (match frozenStart with
           | some fs => if 2 < frozenDur then [frozenIssue fs frozenDur] else []
           | none => []) ++ videoLoop rest (t + 1) true none 0
      else videoLoop rest (t + 1) true none 0

/-- The frame-sampling loop of `analyze_video`, entered as in the source
with no previous frame and no open frozen span. -/
def analyzeVideoFrames (frames : List SampledFrame) : List Issue :=
  videoLoop frames 0 false none 0

/-- Consecutive-similarity flags: entry `j` states that sampled frame `j+1`
is similar (PSNR > 45 dB) to sampled frame `j`. -/
def simFlags (frames : List SampledFrame) : List Bool :=
  (frames.drop 1).map (·.similarPrev)

/-- Whether an issue is a `frozen_frame` issue. -/
def isFrozenIssue (iss : Issue) : Bool := iss.type == "frozen_frame"

/-- The frozen-frame issue a similarity run `[s, e)` contributes: emitted
exactly when the span exceeds two seconds. -/
def frozenSpanIssue (p : ℕ × ℕ) : Option Issue :=
  if 2 < p.2 - p.1 then some (frozenIssue p.1 (p.2 - p.1)) else none

lemma blackIssues_no_frozen (f : SampledFrame) (t : ℕ) :
    (blackIssues f t).filter isFrozenIssue = [] := by
  unfold blackIssues
  split <;> simp [isFrozenIssue]

lemma filter_frozen_emit (fs d : ℕ) :
    ((if 2 < d then [frozenIssue fs d] else []).filter isFrozenIssue)
      = (if 2 < d then [frozenIssue fs d] else []) := by
  split <;> simp [isFrozenIssue, frozenIssue]

lemma videoLoop_frozen : ∀ (rest : List SampledFrame) (t : ℕ), 1 ≤ t →
    ((videoLoop rest t true none 0).filter isFrozenIssue
        = (runsAux (rest.map (·.similarPrev)) (t - 1) none).filterMap frozenSpanIssue)
    ∧ (∀ fs d : ℕ, fs + d = t - 1 →
        (videoLoop rest t true (some fs) d).filter isFrozenIssue
          = (runsAux (rest.map (·.similarPrev)) (t - 1) (some fs)).filterMap
              frozenSpanIssue) := by
  intro rest
  induction rest with
  | nil =>
    intro t ht
    constructor
    · simp [videoLoop, runsAux]
    · intro fs d hinv
      show ((if 2 < d then [frozenIssue fs d] else []).filter isFrozenIssue)
        = (runsAux [] (t - 1) (some fs)).filterMap frozenSpanIssue
      rw [filter_frozen_emit]
      show _ = ([(fs, t - 1)] : List (ℕ × ℕ)).filterMap frozenSpanIssue
      rw [List.filterMap_cons, List.filterMap_nil]
      unfold frozenSpanIssue
      rw [show (fs, t - 1).2 - (fs, t - 1).1 = d from by omega]
      split
      · rfl
      · rfl
  | cons f rest' ih =>
    intro t ht
    have ih1 := (ih (t + 1) (by omega)).1
    have ih2 := (ih (t + 1) (by omega)).2
    rw [show t + 1 - 1 = (t - 1) + 1 by omega] at ih1 ih2
    constructor
    · cases hsim : f.similarPrev
      · have h : videoLoop (f :: rest') t true none 0
            = blackIssues f t ++ ([] ++ videoLoop rest' (t + 1) true none 0) := by
          simp [videoLoop, hsim]
        rw [h, List.filter_append, blackIssues_no_frozen, List.nil_append,
          List.filter_append]
        show [] ++ _ = _
        rw [List.nil_append, ih1]
        have hm : (f :: rest').map (·.similarPrev)
            = false :: rest'.map (·.similarPrev) := by simp [hsim]
        rw [hm]
        have : runsAux (false :: rest'.map (·.similarPrev)) (t - 1) none
            = runsAux (rest'.map (·.similarPrev)) ((t - 1) + 1) none := by
          simp [runsAux]
        rw [this]
      · have h : videoLoop (f :: rest') t true none 0
            = blackIssues f t
              ++ videoLoop rest' (t + 1) true (some (t - 1)) 1 := by
          simp [videoLoop, hsim]
        rw [h, List.filter_append, blackIssues_no_frozen, List.nil_append]
        rw [ih2 (t - 1) 1 (by omega)]
        have hm : (f :: rest').map (·.similarPrev)
            = true :: rest'.map (·.similarPrev) := by simp [hsim]
        rw [hm]
        have : runsAux (true :: rest'.map (·.similarPrev)) (t - 1) none
            = runsAux (rest'.map (·.similarPrev)) ((t - 1) + 1) (some (t - 1)) := by
          simp [runsAux]
        rw [this]
    · intro fs d hinv
      cases hsim : f.similarPrev
      · have h : videoLoop (f :: rest') t true (some fs) d
            = blackIssues f t
              ++ ((if 2 < d then [frozenIssue fs d] else [])
                ++ videoLoop rest' (t + 1) true none 0) := by
          simp [videoLoop, hsim]
        rw [h, List.filter_append, blackIssues_no_frozen, List.nil_append,
          List.filter_append, filter_frozen_emit, ih1]
        have hm : (f :: rest').map (·.similarPrev)
            = false :: rest'.map (·.similarPrev) := by simp [hsim]
        rw [hm]
        have : runsAux (false :: rest'.map (·.similarPrev)) (t - 1) (some fs)
            = (fs, t - 1) :: runsAux (rest'.map (·.similarPrev)) ((t - 1) + 1) none := by
          simp [runsAux]
        rw [this, List.filterMap_cons]
        unfold frozenSpanIssue
        rw [show (fs, t - 1).2 - (fs, t - 1).1 = d from by omega]
        split
        · rfl
        · rfl
      · have h : videoLoop (f :: rest') t true (some fs) d
            = blackIssues f t
              ++ videoLoop rest' (t + 1) true (some fs) (d + 1) := by
          simp [videoLoop, hsim]
        rw [h, List.filter_append, blackIssues_no_frozen, List.nil_append]
        rw [ih2 fs (d + 1) (by omega)]
        have hm : (f :: rest').map (·.similarPrev)
            = true :: rest'.map (·.similarPrev) := by simp [hsim]
        rw [hm]
        have : runsAux (true :: rest'.map (·.similarPrev)) (t - 1) (some fs)
            = runsAux (rest'.map (·.similarPrev)) ((t - 1) + 1) (some fs) := by
          simp [runsAux]
        rw [this]

lemma analyzeVideoFrames_frozen (frames : List SampledFrame) :
    (analyzeVideoFrames frames).filter isFrozenIssue
      = (runSpans (simFlags frames)).filterMap frozenSpanIssue := by
  cases frames with
  | nil =>
    show (videoLoop [] 0 false none 0).filter isFrozenIssue = _
    rw [runSpans_eq_runsAux]
    simp [videoLoop, runsAux, simFlags]
  | cons f rest =>
    show (videoLoop (f :: rest) 0 false none 0).filter isFrozenIssue = _
    have h : videoLoop (f :: rest) 0 false none 0
        = blackIssues f 0 ++ videoLoop rest 1 true none 0 := by
      simp [videoLoop]
    rw [h, List.filter_append, blackIssues_no_frozen, List.nil_append,
      (videoLoop_frozen rest 1 (le_refl 1)).1, runSpans_eq_runsAux]
    rfl

/-- **C5.** The frozen-frame detector of `analyze_video` emits exactly one
`frozen_frame` issue per maximal contiguous run of consecutive sampled
frames whose similarity exceeds the PSNR > 45 dB threshold and whose span
exceeds two seconds — including a run still open when the frame sequence
ends — never one issue per sampled frame; the issue's duration is the span
length and its severity is `high` when the span exceeds five seconds, else
`medium`. -/
theorem frozen_frame_runs (frames : List SampledFrame) :
    (analyzeVideoFrames frames).filter isFrozenIssue
        = (runSpans (simFlags frames)).filterMap frozenSpanIssue
    ∧ (∀ s e : ℕ, ((s, e) ∈ runSpans (simFlags frames)
        ↔ IsMaxRun (simFlags frames) s e))
    ∧ (∀ p : ℕ × ℕ,
        frozenSpanIssue p
          = if 2 < p.2 - p.1 then some (frozenIssue p.1 (p.2 - p.1)) else none)
    ∧ (∀ iss ∈ (analyzeVideoFrames frames).filter isFrozenIssue,
        (2 : ℚ) < iss.duration
        ∧ iss.severity
            = if (5 : ℚ) < iss.duration then Severity.high else Severity.medium) := by
  refine ⟨analyzeVideoFrames_frozen frames,
    fun s e => runSpans_mem_iff _ s e, fun p => rfl, ?_⟩
  intro iss hiss
  rw [analyzeVideoFrames_frozen frames] at hiss
  rcases List.mem_filterMap.1 hiss with ⟨p, hp, hsome⟩
  unfold frozenSpanIssue at hsome
  split at hsome
  · rename_i hd
    rcases Option.some.inj hsome with rfl
    constructor
    · show (2 : ℚ) < ((p.2 - p.1 : ℕ) : ℚ)
      exact_mod_cast hd
    · show (if 5 < p.2 - p.1 then Severity.high else Severity.medium)
        = if (5 : ℚ) < ((p.2 - p.1 : ℕ) : ℚ) then Severity.high else Severity.medium
      have : ((5 : ℚ) < ((p.2 - p.1 : ℕ) : ℚ)) ↔ 5 < p.2 - p.1 := by
        exact_mod_cast Iff.rfl
      by_cases h5 : 5 < p.2 - p.1
      · rw [if_pos h5, if_pos (this.2 h5)]
      · rw [if_neg h5, if_neg (fun hc => h5 (this.1 hc))]
  · exact absurd hsome (by simp)

/-! ## The analyzer object, its pipelines, and the simple server variant -/

/-- A decoded sound array (`to_soundarray()`): 1-D, or 2-D as a list of
per-sample channel rows. -/
inductive AudioArray
  | mono (samples : List ℚ)
  | multi (rows : List (List ℚ))
deriving Repr

/-- `np.mean` of a row. -/
def rowMean (r : List ℚ) : ℚ := r.sum / r.length

/-- The stereo-to-mono conversion of `analyze_audio`:
`np.mean(audio_array, axis=1)` when the array is 2-D, identity otherwise. -/
def downmix : AudioArray → List ℚ
  | .mono a => a
  | .multi rows => rows.map rowMean

/-- A decoded audio track: its sound array and sample rate
(`audio_clip.fps`). -/
structure AudioTrack where
  array : AudioArray
  fps : ℚ
deriving Repr

/-- A decoded media handle (`VideoFileClip`): duration, frame rate,
dimensions, the optional audio track, and the per-second sampled frames the
frame loop consumes. -/
structure MediaClip where
  duration : ℚ
  fps : ℚ
  width : ℤ
  height : ℤ
  audio : Option AudioTrack
  frames : List SampledFrame
deriving Repr

/-- The state of a `VideoAnalyzer`: `video_clip`, `audio_data` and
`sample_rate` start as `None`; `extract_metadata` sets the clip and
`analyze_audio` stores the decoded samples. -/
structure AnalyzerState where
  videoClip : Option MediaClip
  audioData : Option (List ℚ)
  sampleRate : Option ℚ
deriving Repr

/-- `sorted(issues, key=lambda x: self._timestamp_to_seconds(x['timestamp']))`:
Python's `sorted` is a stable merge sort. -/
def sortIssues (issues : List Issue) : List Issue :=
  issues.mergeSort (fun a b =>
    decide (timestampToSeconds a.timestamp ≤ timestampToSeconds b.timestamp))

/-- `_analyze_loudness`: the integrated LUFS measured by the external
`pyloudnorm` meter enters as an oracle (`none` models an infinite
measurement or a meter failure, both of which emit nothing). Outside the
−28..−12 LUFS band one `medium` issue at timestamp 0 covering the whole
signal is emitted. -/
def analyzeLoudness (lufs : Option ℚ) (sampleCount : ℕ) (sampleRate : ℚ) :
    List Issue :=
  match lufs with
  | none => []
  | some L =>
    if L < -28 then
      [{ type := "low_loudness", timestamp := secondsToTimestamp 0,
         duration := (sampleCount : ℚ) / sampleRate,
         severity := Severity.medium }]
    else if -12 < L then
      [{ type := "high_loudness", timestamp := secondsToTimestamp 0,
         duration := (sampleCount : ℚ) / sampleRate,
         severity := Severity.medium }]
    else []

/-- The guard of `analyze_audio`
(`if not self.video_clip or not self.video_clip.audio: return []`): the
audio track, provided a clip is loaded and has one. -/
def clipAudio (a : AnalyzerState) : Option AudioTrack :=
  match a.videoClip with
  | none => none
  | some clip => clip.audio

/-- `analyze_audio`: `[]` when no clip is loaded or the clip has no audio
track; otherwise downmix, run the four checks in order and sort the combined
issue list by timestamp. The glitch detector's output (derived from librosa
features, external) enters as an oracle parameter; the model is pure, so the
`audio_analysis_error` fallback of the source's `except` branch (reachable
only through external-library failures) does not arise. -/
def analyzeAudio (a : AnalyzerState) (lufs : Option ℚ)
    (glitches : List Issue) : List Issue :=
  match clipAudio a with
  | none => []
  | some track =>
    let audioMono := downmix track.array
    let sr := track.fps
    sortIssues (analyzeLoudness lufs audioMono.length sr
      ++ detectClipping audioMono sr ++ detectSilences audioMono sr
      ++ glitches)

/-- `analyze_video`: `[]` when no clip is loaded, otherwise the frame loop's
issues sorted by timestamp. -/
def analyzeVideo (a : AnalyzerState) : List Issue :=
  match a.videoClip with
  | none => []
  | some clip => sortIssues (analyzeVideoFrames clip.frames)

/-- A value of the metrics dictionary. -/
inductive Metric
  | num (q : ℚ)
  | str (s : String)
  | ts (t : Timestamp)
  | na
deriving DecidableEq, Repr

/-- Python's `round(x, 2)`: round half-to-even at two decimals. -/
def round2 (q : ℚ) : ℚ := (roundHalfEven (q * 100) : ℚ) / 100

/-- `compute_metrics`: `{}` when no clip is loaded; otherwise the base
metrics, extended with the audio metrics when `analyze_audio` has stored
decoded samples and a truthy (nonzero) sample rate. The integrated LUFS and
the dynamic-range dB value (transcendental measurements) enter as oracles;
the `rms > 0` guard on the dynamic range is the rational condition that the
sum of squared samples is positive. -/
def computeMetrics (a : AnalyzerState) (fileSize : ℚ)
    (lufs : Option ℚ) (dynRangeDb : ℚ) : List (String × Metric) :=
  match a.videoClip with
  | none => []
  | some clip =>
    let base : List (String × Metric) :=
      [("duration_formatted", Metric.ts (secondsToTimestamp clip.duration)),
       ("fps", Metric.num clip.fps),
       ("resolution",
         Metric.str (toString clip.width ++ "x" ++ toString clip.height)),
       ("aspect_ratio", Metric.num (round2 ((clip.width : ℚ) / (clip.height : ℚ)))),
       ("file_size_mb", Metric.num (round2 (fileSize / (1024 * 1024))))]
    match a.audioData, a.sampleRate with
    | some samples, some sr =>
      if sr = 0 then base
      else
        base ++
          [("integrated_lufs",
             match lufs with
             | some L => Metric.num (round2 L)
             | none => Metric.na),
           ("audio_sample_rate", Metric.num sr),
           ("dynamic_range_db",
             if 0 < (samples.map (fun x => x ^ 2)).sum then
               Metric.num (round2 dynRangeDb)
             else Metric.na)]
    | _, _ => base

/-- The `no_audio` issue of `analyze_video_simple` (`test_simple.py`):
timestamp 0, duration the whole clip, severity `medium`. -/
def noAudioIssue (duration : ℚ) : Issue :=
  { type := "no_audio", timestamp := secondsToTimestamp 0,
    duration := duration, severity := Severity.medium }

/-- `np.mean(x ** 2)`. RMS comparisons `sqrt(meanSq) < c` are modelled by
the equivalent rational comparisons `meanSq < c²`. -/
def meanSq (samples : List ℚ) : ℚ :=
  ((samples.map (fun x => x ^ 2)).sum) / samples.length

/-- The mono conversion of `analyze_video_simple`: a 2-D array with more
than one channel is averaged per sample, anything else is flattened. -/
def downmixSimple : AudioArray → List ℚ
  | .mono a => a
  | .multi rows =>
      if 1 < (rows.headD []).length then rows.map rowMean else rows.flatten

/-- Channel `k` of a 2-D array (`audio_array[:, k]`). -/
def column (rows : List (List ℚ)) (k : ℕ) : List ℚ :=
  rows.map (fun r => r.getD k 0)

/-- `np.corrcoef(l, r)[0, 1] > 0.99`, expressed rationally: with centred
cross-sum `c` and centred square sums `vl`, `vr` (the common normalisation
cancels in the ratio), the condition is `c > 0 ∧ c² > 0.9801 · vl · vr`. -/
def corrGt99 (l r : List ℚ) : Bool :=
  let ml := l.sum / l.length
  let mr := r.sum / r.length
  let c := (List.zipWith (fun a b => (a - ml) * (b - mr)) l r).sum
  let vl := (l.map (fun a => (a - ml) ^ 2)).sum
  let vr := (r.map (fun b => (b - mr) ^ 2)).sum
  decide (0 < c ∧ (9801 : ℚ)/10000 * (vl * vr) < c ^ 2)

/-- Python's `range(0, n, step)` for `step ≥ 1` (the `step = 0` case raises
in Python; here it yields `[]`, a case the callers below never hit with a
positive sample rate of at least 2 Hz). -/
def pyRange (n step : ℕ) : List ℕ :=
  (List.range ((n + step - 1) / step)).map (· * step)

/-- The 0.5-second silence-window scan of `analyze_video_simple`:
`window_size = int(sample_rate * 0.5)`, windows at multiples of
`window_size` strictly below `len - window_size`, flagged when the window
RMS is below 0.001. -/
def silenceWindows (samples : List ℚ) (sr : ℚ) : List Issue :=
  let ws : ℕ := (⌊sr * (1/2)⌋).toNat
  (pyRange (samples.length - ws) ws).filterMap (fun i =>
    if meanSq ((samples.drop i).take ws) < 1/10^6 then
      some { type := "silence", timestamp := secondsToTimestamp ((i : ℚ) / sr),
             duration := 1/2, severity := Severity.low }
    else none)

/-- The audio checks of `analyze_video_simple` when an audio track exists
(`test_simple.py`, lines 152–247): clipping percentage, overall RMS level,
DC offset, mono-in-stereo correlation, and the silence-window scan. -/
def simpleAudioChecks (track : AudioTrack) (duration : ℚ) : List Issue :=
  let audioMono := downmixSimple track.array
  let sr := track.fps
  let clipCount := (audioMono.filter (fun x => decide ((19 : ℚ)/20 ≤ |x|))).length
  let clipPct : ℚ := (clipCount : ℚ) / (audioMono.length : ℚ) * 100
  let clipIssues : List Issue :=
    if 0 < clipCount then
      if 1/100 < clipPct then
        [{ type := "clipping", timestamp := secondsToTimestamp 0,
           duration := duration,
           severity := if 1/2 < clipPct then Severity.high else Severity.medium }]
      else []
    else []
  let volumeIssues : List Issue :=
    if meanSq audioMono < 1/400 then
      [{ type := "low_volume", timestamp := secondsToTimestamp 0,
         duration := duration, severity := Severity.medium }]
    else if 16/25 < meanSq audioMono then
      [{ type := "high_volume", timestamp := secondsToTimestamp 0,
         duration := duration, severity := Severity.medium }]
    else []
  let dcIssues : List Issue :=
    if 1/100 < |audioMono.sum / (audioMono.length : ℚ)| then
      [{ type := "dc_offset", timestamp := secondsToTimestamp 0,
         duration := duration, severity := Severity.low }]
    else []
  let stereoIssues : List Issue :=
    match track.array with
    | .multi rows =>
      if (rows.headD []).length = 2 then
        if corrGt99 (column rows 0) (column rows 1) then
          [{ type := "mono_in_stereo", timestamp := secondsToTimestamp 0,
             duration := duration, severity := Severity.low }]
        else []
      else []
    | .mono _ => []
  clipIssues ++ volumeIssues ++ dcIssues ++ stereoIssues
    ++ silenceWindows audioMono sr

/-- The `audio_issues` list of `analyze_video_simple`: with an audio track,
the simple checks; without one, exactly one `no_audio` issue. -/
def simpleAudioIssues (audio : Option AudioTrack) (duration : ℚ) : List Issue :=
  match audio with
  | some track => simpleAudioChecks track duration
  | none => [noAudioIssue duration]

/-! ## Summary classification -/

/-- The structured part of the summary dict returned by `generate_summary`
(the free-text `points` list is presentational and omitted). -/
structure Summary where
  status : Status
  totalIssues : ℕ
  highSeverityIssues : ℕ
deriving DecidableEq, Repr

/-- `generate_summary` (`video_analyzer.py`): `FAIL` when any high-severity
issue exists, again `FAIL` when more than five issues exist, otherwise
`PASS`. The `metrics` argument only feeds the omitted free-text points. -/
def generateSummary (audioIssues videoIssues : List Issue)
    (_metrics : List (String × Metric)) : Summary :=
  let total := audioIssues.length + videoIssues.length
  let high := ((audioIssues ++ videoIssues).filter
    (fun i => decide (i.severity = Severity.high))).length
  { status :=
      if 0 < high then Status.FAIL
      else if 5 < total then Status.FAIL
      else Status.PASS
    totalIssues := total
    highSeverityIssues := high }

/-- The status computation of `analyze_video_simple` (`test_simple.py`,
lines 292–297): `FAIL` on any high-severity issue, else `WARNING` when more
than two medium-severity issues or more than five issues exist, else
`PASS`. -/
def simpleStatus (audioIssues videoIssues : List Issue) : Status :=
  let total := audioIssues.length + videoIssues.length
  let high := ((audioIssues ++ videoIssues).filter
    (fun i => decide (i.severity = Severity.high))).length
  let medium := ((audioIssues ++ videoIssues).filter
    (fun i => decide (i.severity = Severity.medium))).length
  if 0 < high then Status.FAIL
  else if 2 < medium ∨ 5 < total then Status.WARNING
  else Status.PASS

/-! ## Job status store and the orchestrator's write trace -/

/-- Job lifecycle states visible in a stored or synthesised status. -/
inductive JobState
  | RUNNING
  | DONE
  | ERROR
  | NOT_FOUND
deriving DecidableEq, Repr

/-- A job status record (`{'state': ..., 'progress': ..., 'stage': ...}`). -/
structure JobStatus where
  state : JobState
  progress : ℕ
  stage : String
deriving DecidableEq, Repr

/-- `get_job_status` (`analysis_tasks.py`; the `app_simple.py` route is the
same lookup over the in-memory dict): look the job up in the status store;
an absent entry yields a synthetic `NOT_FOUND` status with progress 0 and
empty stage. -/
def getJobStatus (store : String → Option JobStatus) (jobId : String) :
    JobStatus :=
  match store jobId with
  | some st => st
  | none => { state := JobState.NOT_FOUND, progress := 0, stage := "" }

/-- A single status write of the orchestrator (only `RUNNING`, `DONE` and
`ERROR` are ever written; `NOT_FOUND` is query-only). -/
structure StatusWrite where
  state : JobState
  progress : ℕ
deriving DecidableEq, Repr

/-- The fixed progress checkpoints written by the orchestrator
(`analysis_tasks.analyze_video` and `app_simple.analyze_video_sync`):
0 start, 10 metadata, 30 audio, 60 video frames, 80 metrics,
90 compiling. -/
def checkpoints : List ℕ := [0, 10, 30, 60, 80, 90]

/-- The sequence of status writes of one orchestrator run: on success all
six `RUNNING` checkpoints then `DONE 100`; when the stage following the
`k`-th checkpoint write raises, the run writes `ERROR 0` and skips the
remaining stages. -/
def runTrace : Option (Fin 6) → List StatusWrite
  | none =>
      checkpoints.map (fun p => { state := JobState.RUNNING, progress := p })
        ++ [{ state := JobState.DONE, progress := 100 }]
  | some k =>
      (checkpoints.take (k + 1)).map
          (fun p => { state := JobState.RUNNING, progress := p })
        ++ [{ state := JobState.ERROR, progress := 0 }]

/-! ## Claim theorems on the pipelines, summary, job store and trace -/

lemma sortIssues_sorted (l : List Issue) :
    (sortIssues l).Pairwise
      (fun a b => timestampToSeconds a.timestamp ≤ timestampToSeconds b.timestamp) := by
  unfold sortIssues
  have h := @List.sorted_mergeSort Issue
    (fun a b => decide (timestampToSeconds a.timestamp ≤ timestampToSeconds b.timestamp))
    (fun a b c hab hbc =>
      decide_eq_true (le_trans (of_decide_eq_true hab) (of_decide_eq_true hbc)))
    (fun a b => by
      simp only [Bool.or_eq_true]
      rcases le_total (timestampToSeconds a.timestamp)
          (timestampToSeconds b.timestamp) with h | h
      · exact Or.inl (decide_eq_true h)
      · exact Or.inr (decide_eq_true h))
    l
  exact h.imp (fun hab => of_decide_eq_true hab)

/-- **C9.** `analyze_audio` and `analyze_video` both return issue lists
sorted ascending by the issue timestamp converted to seconds: each function
ends in `sorted(issues, key=lambda x: _timestamp_to_seconds(x['timestamp']))`
over whatever issues its checks produced. -/
theorem issues_sorted (a : AnalyzerState) (lufs : Option ℚ)
    (glitches : List Issue) :
    (analyzeAudio a lufs glitches).Pairwise
        (fun x y => timestampToSeconds x.timestamp ≤ timestampToSeconds y.timestamp)
    ∧ (analyzeVideo a).Pairwise
        (fun x y => timestampToSeconds x.timestamp ≤ timestampToSeconds y.timestamp) := by
  constructor
  · unfold analyzeAudio
    cases hca : clipAudio a with
    | none => exact List.Pairwise.nil
    | some track => exact sortIssues_sorted _
  · unfold analyzeVideo
    cases hvc : a.videoClip with
    | none => exact List.Pairwise.nil
    | some clip => exact sortIssues_sorted _

/-! ### C2: behaviour on media without an audio stream -/

/-- A loaded clip with no audio stream (concrete input for C2). -/
def noAudioClip : MediaClip :=
  { duration := 4, fps := 30, width := 640, height := 480,
    audio := none, frames := [] }

/-- An analyzer that has loaded `noAudioClip`. -/
def noAudioState : AnalyzerState :=
  { videoClip := some noAudioClip, audioData := none, sampleRate := none }

/-- **C2 counterexample.** On a loaded clip with no audio stream,
`VideoAnalyzer.analyze_audio` returns the empty list — not a one-element
list containing a `no_audio` issue, as the claim states. -/
theorem no_audio_counterexample :
    analyzeAudio noAudioState none [] = []
    ∧ (analyzeAudio noAudioState none []).length ≠ 1 := by
  have h : analyzeAudio noAudioState none [] = [] := rfl
  refine ⟨h, ?_⟩
  rw [h]
  decide

/-- **C2 amended.** When the media has no audio stream,
`VideoAnalyzer.analyze_audio` performs none of the audio checks and returns
the empty issue list; it is the simple server's `analyze_video_simple` that
emits exactly one `no_audio` issue, of severity `medium`, spanning the whole
clip. -/
theorem no_audio_amended (a : AnalyzerState) (clip : MediaClip)
    (hvc : a.videoClip = some clip) (hau : clip.audio = none)
    (lufs : Option ℚ) (glitches : List Issue) :
    analyzeAudio a lufs glitches = []
    ∧ simpleAudioIssues clip.audio clip.duration = [noAudioIssue clip.duration]
    ∧ (noAudioIssue clip.duration).type = "no_audio"
    ∧ (noAudioIssue clip.duration).severity = Severity.medium := by
  have hca : clipAudio a = none := by
    unfold clipAudio
    rw [hvc]
    exact hau
  refine ⟨?_, ?_, rfl, rfl⟩
  · unfold analyzeAudio
    rw [hca]
  · unfold simpleAudioIssues
    rw [hau]

/-- Witness for C2's amended claim at the concrete no-audio clip. -/
theorem no_audio_amended_witness :
    noAudioState.videoClip = some noAudioClip
    ∧ noAudioClip.audio = none
    ∧ analyzeAudio noAudioState none [] = []
    ∧ simpleAudioIssues noAudioClip.audio noAudioClip.duration
        = [noAudioIssue noAudioClip.duration] :=
  ⟨rfl, rfl, (no_audio_amended noAudioState noAudioClip rfl rfl none []).1,
    (no_audio_amended noAudioState noAudioClip rfl rfl none []).2.1⟩

/-! ### C10: analyzer with no loaded media handle -/

/-- **C10.** On a `VideoAnalyzer` whose `extract_metadata` has not succeeded
(no media handle loaded), `analyze_audio` and `analyze_video` return the
empty issue list and `compute_metrics` returns the empty dictionary; none
of them raises. -/
theorem unloaded_analyzer_empty (a : AnalyzerState) (h : a.videoClip = none)
    (lufs : Option ℚ) (glitches : List Issue) (fileSize dynRangeDb : ℚ) :
    analyzeAudio a lufs glitches = []
    ∧ analyzeVideo a = []
    ∧ computeMetrics a fileSize lufs dynRangeDb = [] := by
  have hca : clipAudio a = none := by
    unfold clipAudio
    rw [h]
  refine ⟨?_, ?_, ?_⟩
  · unfold analyzeAudio
    rw [hca]
  · unfold analyzeVideo
    rw [h]
  · unfold computeMetrics
    rw [h]

/-- A freshly constructed analyzer (all fields `None`). -/
def emptyAnalyzer : AnalyzerState :=
  { videoClip := none, audioData := none, sampleRate := none }

/-- Witness for C10 at a freshly constructed analyzer. -/
theorem unloaded_analyzer_empty_witness :
    emptyAnalyzer.videoClip = none
    ∧ analyzeAudio emptyAnalyzer none [] = []
    ∧ analyzeVideo emptyAnalyzer = []
    ∧ computeMetrics emptyAnalyzer 0 none 0 = [] :=
  ⟨rfl, (unloaded_analyzer_empty emptyAnalyzer rfl none [] 0 0).1,
    (unloaded_analyzer_empty emptyAnalyzer rfl none [] 0 0).2.1,
    (unloaded_analyzer_empty emptyAnalyzer rfl none [] 0 0).2.2⟩

/-! ### C1: the summary status policy -/

/-- A medium-severity issue used as C1's counterexample input. -/
def mediumIssue : Issue :=
  { type := "low_volume", timestamp := ⟨0, 0, 0⟩,
    duration := 1, severity := Severity.medium }

/-- **C1 counterexample.** With three medium-severity issues (no high, total
3 ≤ 5) the claimed policy says `WARNING`, but `generate_summary` returns
`PASS`: its status never considers medium-severity counts and has no
`WARNING` branch. -/
theorem summary_status_counterexample :
    (generateSummary [mediumIssue, mediumIssue, mediumIssue] [] []).status
        = Status.PASS
    ∧ simpleStatus [mediumIssue, mediumIssue, mediumIssue] [] = Status.WARNING
    ∧ (generateSummary [mediumIssue, mediumIssue, mediumIssue] [] []).status
        ≠ simpleStatus [mediumIssue, mediumIssue, mediumIssue] [] := by
  refine ⟨?_, ?_, ?_⟩ <;> decide

/-- **C1 amended.** `generate_summary` returns `FAIL` when there is a
high-severity issue or more than five issues, and `PASS` otherwise; it never
returns `WARNING` and ignores medium-severity counts. The claimed
`FAIL`/`WARNING`/`PASS` policy is the one implemented by the simple server's
`analyze_video_simple` status (`simpleStatus`). -/
theorem summary_status_amended (audioIssues videoIssues : List Issue)
    (metrics : List (String × Metric)) :
    ((generateSummary audioIssues videoIssues metrics).status
        = if 0 < (generateSummary audioIssues videoIssues metrics).highSeverityIssues
            ∨ 5 < (generateSummary audioIssues videoIssues metrics).totalIssues
          then Status.FAIL else Status.PASS)
    ∧ (generateSummary audioIssues videoIssues metrics).status ≠ Status.WARNING
    ∧ simpleStatus audioIssues videoIssues
        = (let high := ((audioIssues ++ videoIssues).filter
              (fun i => decide (i.severity = Severity.high))).length
           let medium := ((audioIssues ++ videoIssues).filter
              (fun i => decide (i.severity = Severity.medium))).length
           let total := audioIssues.length + videoIssues.length
           if 0 < high then Status.FAIL
           else if 2 < medium ∨ 5 < total then Status.WARNING
           else Status.PASS) := by
  have key : ∀ high total : ℕ,
      ((if 0 < high then Status.FAIL else if 5 < total then Status.FAIL
          else Status.PASS)
        = if 0 < high ∨ 5 < total then Status.FAIL else Status.PASS)
      ∧ (if 0 < high then Status.FAIL else if 5 < total then Status.FAIL
          else Status.PASS) ≠ Status.WARNING := by
    intro high total
    constructor
    · split
      · rename_i h1
        rw [if_pos (Or.inl h1)]
      · rename_i h1
        split
        · rename_i h2
          rw [if_pos (Or.inr h2)]
        · rename_i h2
          rw [if_neg (by tauto)]
    · split
      · decide
      · split <;> decide
  exact ⟨(key _ _).1, (key _ _).2, rfl⟩

/-! ### C8: status queries for unknown jobs -/

/-- **C8.** A status query for a job identifier absent from the store
returns a synthetic status with state `NOT_FOUND` and progress 0, a state
distinct from `ERROR`. -/
theorem notFound_status (store : String → Option JobStatus) (jobId : String)
    (h : store jobId = none) :
    (getJobStatus store jobId).state = JobState.NOT_FOUND
    ∧ (getJobStatus store jobId).progress = 0
    ∧ (getJobStatus store jobId).state ≠ JobState.ERROR := by
  unfold getJobStatus
  rw [h]
  exact ⟨rfl, rfl, by decide⟩

/-- Witness for C8 on an empty store. -/
theorem notFound_status_witness :
    ((fun _ : String => (none : Option JobStatus)) "job" = none)
    ∧ (getJobStatus (fun _ => none) "job").state = JobState.NOT_FOUND :=
  ⟨rfl, (notFound_status (fun _ => none) "job" rfl).1⟩

/-! ### C3: progress monotonicity of the orchestrator's write trace -/

/-- **C3.** For every run of the orchestrator — successful or failing at any
stage — the progress values of the `RUNNING` statuses written before the
terminal write are non-decreasing, and once a terminal (`DONE` or `ERROR`)
status is written no further `RUNNING` status is ever written for that
job. -/
theorem progress_monotone : ∀ outcome : Option (Fin 6),
    ((((runTrace outcome).takeWhile
        (fun w => w.state == JobState.RUNNING)).map
          (fun w => w.progress)).Pairwise (· ≤ ·))
    ∧ ((runTrace outcome).dropWhile
        (fun w => w.state == JobState.RUNNING)).all
          (fun w => !(w.state == JobState.RUNNING)) := by
  decide

end VideoQA
